import Mathlib

/-!
# Verification of the Julia JIT profiling subsystem (`src/jitprof.cpp`)

This file is a shallow embedding of the JIT profiling passes found in
`src/jitprof.cpp` of the repository: the `ProfilingFlags` resolution logic,
the profile store (`JITFunctionProfiler`), the instrumentation helpers
(`addCallInstrumentation`, `addBranchInstrumentation`,
`applyPGOInstrumentation`, `addAllocInstrumentation`), the two pass entry
points (`JITPreoptimizationProfiler::run`, `JITPostoptimizationProfiler::run`)
and the JSON `dump` routine.

Modelling conventions:
* Machine integers (`uint64_t` counters, `ConstantInt` operands) are `Nat`.
  All counters in the source are add-only, so overflow never matters for the
  properties considered here.
* Mutexes and atomic orderings are dropped: the embedding is sequential, and
  each C++ mutation becomes explicit state passing.
* LLVM IR is modelled just deeply enough for the code under verification: a
  function is a list of basic blocks, a block is a list of instructions plus
  a terminator carrying optional branch-weight metadata, and the only operand
  the passes inspect (a conditional branch's condition) is either a constant
  or a runtime value.
* Undefined behaviour (out-of-bounds `std::vector` indexing, dereferencing a
  null `std::unique_ptr`) is modelled by `Option`: a `none` result marks the
  execution as having hit UB.
* LLVM `atomicrmw add` returns the value the memory held *before* the
  addition (LLVM LangRef); this is baked into the runtime model of the
  injected call-count instrumentation.
-/

/-- Structure `ProfilingFlags` from `jitprof.cpp`: four independent booleans.  The field
order (allocations, branches, calls, PGO) is the tuple order used by
`ProfilingFlags::toMDNode` / `fromMDNode` (lines 30-48 of the source). -/
structure ProfilingFlags where
  ProfileAllocations : Bool
  ProfileBranches : Bool
  ProfileCalls : Bool
  ApplyPGO : Bool
deriving DecidableEq, Repr

/-- The three `cl::opt` global force switches (lines 8-10 of the source),
passed explicitly to keep the embedding pure. -/
structure ForceFlags where
  ForceProfileAllocations : Bool
  ForceProfileCalls : Bool
  ForceProfileBranches : Bool
deriving DecidableEq, Repr

/-- The `julia.prof.reporter` metadata tuple (consumed at lines 58-75 of the
source): an integer threshold, a callback address, and the remaining constant
arguments.  The source asserts at least two operands; the structure encodes
exactly that shape. -/
structure ReporterMD where
  limit : Nat
  callback : Nat
  args : List Nat
deriving DecidableEq, Repr

/-- A conditional branch's condition operand: either a compile-time constant
(`isa<Constant>` in the source) or a runtime value. -/
inductive Operand where
  | const (b : Bool)
  | value (v : Nat)
deriving DecidableEq, Repr

/-- Test `isa<Constant>(Br->getCondition())` (line 88 of the source). -/
def Operand.isConst : Operand → Bool
  | .const _ => true
  | .value _ => false

/-- Targets of the injected atomic-add instructions: the addresses of the
counters of the instrumented function's own `FunctionProfile`, identified
symbolically (the source embeds the raw addresses, lines 52, 96-97, 125-126). -/
inductive CounterTarget where
  | callCount
  | taken (i : Nat)
  | total (i : Nat)
  | preSize
  | preCount
  | postSize
  | postCount
deriving DecidableEq, Repr

/-- The amount added by an injected atomic add: a constant (`1`), the
zero-extension of a branch condition (line 100), or the integer-cast size
operand of an allocation call (line 142). -/
inductive AddAmount where
  | const (n : Nat)
  | zextCond
  | sizeOperand (n : Nat)
deriving DecidableEq, Repr

/-- Instructions, modelled just deeply enough for the passes:
* `atomicAdd` — an injected `atomicrmw add` to a profile counter;
* `callInst` — a call instruction with its callee name (none for indirect
  calls, `CI->getCalledFunction()` null) and its operand 1 (the size argument
  read at line 142);
* `thresholdCheck` — the reporter sequence injected at lines 63-75: the
  `icmp eq` of the `atomicrmw` result against the threshold, the
  `SplitBlockAndInsertIfThen` branch, and the conditional callback call;
* `other` — any other instruction. -/
inductive Instr where
  | atomicAdd (tgt : CounterTarget) (amt : AddAmount)
  | callInst (callee : Option String) (sizeArg : Nat)
  | thresholdCheck (limit : Nat) (callback : Nat) (args : List Nat)
  | other
deriving DecidableEq, Repr

/-- Block terminators: a conditional branch (`BranchInst` with a condition),
an unconditional branch, or anything else (`ret`, `switch`, ...). -/
inductive Terminator where
  | condBr (cond : Operand)
  | br
  | other
deriving DecidableEq, Repr

/-- A basic block: instruction list, terminator, and the terminator's
`!prof` branch-weight metadata (written by `applyPGOInstrumentation`,
line 118 of the source). -/
structure BasicBlock where
  insts : List Instr
  term : Terminator
  weights : Option (Nat × Nat) := none
deriving DecidableEq, Repr

/-- An LLVM function as the passes see it: name, optional `julia.prof`
metadata (a 4-tuple of integer constants), optional `julia.prof.reporter`
metadata, the function-level `!prof` entry-count metadata (written at
line 109 of the source), and the block list. -/
structure IRFunction where
  name : String
  profMD : Option (Nat × Nat × Nat × Nat) := none
  reporterMD : Option ReporterMD := none
  entryCount : Option Nat := none
  blocks : List BasicBlock
deriving DecidableEq, Repr

/-- Record `FunctionProfile::AllocInfo`: two add-only counters. -/
structure AllocInfo where
  Size : Nat
  Count : Nat
deriving DecidableEq, Repr

/-- Record `FunctionProfile::BranchInfo`: per-branch-site counters. -/
structure BranchInfo where
  Taken : Nat
  Total : Nat
deriving DecidableEq, Repr

instance : Inhabited BranchInfo := ⟨⟨0, 0⟩⟩

/-- Record `FunctionProfile`: the per-function record held by the store.  A
`BranchProfiles` slot is `none` where the C++ `std::unique_ptr` is null. -/
structure FunctionProfile where
  CallCount : Nat
  Preopt : AllocInfo
  Postopt : AllocInfo
  BranchProfiles : List (Option BranchInfo)
  Loops : Nat
  BBs : Nat
  Insts : Nat
deriving DecidableEq, Repr

/-- The `JITFunctionProfiler` store: the `StringMap` from function name to
profile, modelled as an association list in iteration order. -/
abbrev Store := List (String × FunctionProfile)

/-- The result reported back to the pass manager: either
`PreservedAnalyses::all()` or the default-constructed
`PreservedAnalyses()` (preserving nothing). -/
inductive PreservedAnalyses where
  | all
  | none
deriving DecidableEq, Repr

/-- Decoder `ProfilingFlags::fromMDNode` (lines 30-39 of the source): decode the
4-tuple positionally — operand 0 → allocations, 1 → branches, 2 → calls,
3 → PGO — each through `!!…getZExtValue()`. -/
def ProfilingFlags.fromMDNode (t : Nat × Nat × Nat × Nat) : ProfilingFlags :=
  { ProfileAllocations := t.1 != 0
    ProfileBranches := t.2.1 != 0
    ProfileCalls := t.2.2.1 != 0
    ApplyPGO := t.2.2.2 != 0 }

/-- Resolution helper `fromFunction` (lines 18-28 of the source): an attached `julia.prof`
annotation is authoritative; otherwise start from all-false and OR in the
three global force switches (PGO has no force switch). -/
def fromFunction (fc : ForceFlags) (F : IRFunction) : ProfilingFlags :=
  match F.profMD with
  | some md => ProfilingFlags.fromMDNode md
  | none =>
    { ProfileAllocations := false || fc.ForceProfileAllocations
      ProfileBranches := false || fc.ForceProfileBranches
      ProfileCalls := false || fc.ForceProfileCalls
      ApplyPGO := false }

/-- Claim C4: flag resolution priority.  A present `julia.prof` annotation is
decoded by `fromMDNode` in field order (allocations, branches, calls, PGO)
and is authoritative — the result is independent of every force switch;
absent an annotation the result ORs in the three force switches and
`ApplyPGO` is never set. -/
theorem flags_resolution_priority (fc fc' : ForceFlags) (F : IRFunction) :
    (∀ t, F.profMD = some t →
      fromFunction fc F = ProfilingFlags.fromMDNode t ∧
      fromFunction fc F = fromFunction fc' F) ∧
    (F.profMD = none →
      fromFunction fc F =
        ⟨fc.ForceProfileAllocations, fc.ForceProfileBranches,
         fc.ForceProfileCalls, false⟩) := by
  constructor
  · intro t ht
    simp [fromFunction, ht]
  · intro h
    simp [fromFunction, h]

/-- Witness for C4 at concrete inputs: a function annotated
(alloc=1, branches=0, calls=1, pgo=1) resolves independently of the force
switches, and an unannotated function picks up exactly the force switches
with `ApplyPGO` false. -/
theorem flags_resolution_priority_witness :
    ((⟨"f", some (1, 0, 1, 1), Option.none, Option.none, []⟩ : IRFunction).profMD
        = some (1, 0, 1, 1) ∧
      fromFunction ⟨true, true, true⟩ ⟨"f", some (1, 0, 1, 1), Option.none, Option.none, []⟩
        = ProfilingFlags.fromMDNode (1, 0, 1, 1) ∧
      fromFunction ⟨true, true, true⟩ ⟨"f", some (1, 0, 1, 1), Option.none, Option.none, []⟩
        = fromFunction ⟨false, false, false⟩ ⟨"f", some (1, 0, 1, 1), Option.none, Option.none, []⟩) ∧
    ((⟨"g", Option.none, Option.none, Option.none, []⟩ : IRFunction).profMD = Option.none ∧
      fromFunction ⟨true, false, true⟩ ⟨"g", Option.none, Option.none, Option.none, []⟩
        = ⟨true, true, false, false⟩) := by
  refine ⟨⟨rfl, ?_⟩, rfl, ?_⟩
  · exact (flags_resolution_priority ⟨true, true, true⟩ ⟨false, false, false⟩
      ⟨"f", some (1, 0, 1, 1), Option.none, Option.none, []⟩).1 (1, 0, 1, 1) rfl
  · exact (flags_resolution_priority ⟨true, false, true⟩ ⟨true, false, true⟩
      ⟨"g", Option.none, Option.none, Option.none, []⟩).2 rfl

/-! ## Call instrumentation (`addCallInstrumentation`, lines 50-77) -/

/-- The instruction sequence `addCallInstrumentation` inserts at the entry
block's first insertion point: the `atomicrmw add` of 1 to `&Prof.CallCount`
(line 54), followed — when `julia.prof.reporter` metadata is present — by the
threshold-check sequence of lines 63-75. -/
def callPrologue (reporter : Option ReporterMD) : List Instr :=
  Instr.atomicAdd CounterTarget.callCount (AddAmount.const 1) ::
    (match reporter with
     | Option.none => []
     | some r => [Instr.thresholdCheck r.limit r.callback r.args])

/-- The source's `addCallInstrumentation` as a transformation of the function's code:
the prologue is inserted at the start of the entry block. -/
def addCallInstrumentation (F : IRFunction) : IRFunction :=
  { F with blocks :=
      F.blocks.modifyHead fun bb => { bb with insts := callPrologue F.reporterMD ++ bb.insts } }

/-- The runtime effect of one `atomicrmw add` on a 64-bit counter cell:
returns the new cell contents and the instruction's result value, which per
the LLVM LangRef is the *original* value the cell held before the add. -/
def atomicRMWAdd (cell : Nat) (v : Nat) : Nat × Nat :=
  (cell + v, cell)

/-- The runtime effect of one execution of the instrumented entry prologue on
the `CallCount` cell: the `atomicrmw add` of line 54 produces the SSA value
`%CallCount` (the pre-increment count), and when a reporter is attached the
`icmp eq %CallCount, Limit` of line 63 decides whether the callback is
invoked.  Returns the new cell contents and whether the callback fired. -/
def execCallPrologue (reporter : Option ReporterMD) (cell : Nat) : Nat × Bool :=
  let r := atomicRMWAdd cell 1
  match reporter with
  | Option.none => (r.1, false)
  | some md => (r.1, r.2 == md.limit)

/-- Runs `n` consecutive executions of a calls-instrumented function starting from
a zero `CallCount` cell: the final cell contents together with the list of
per-execution reporter outcomes (index `k` is the `(k+1)`-st execution). -/
def runCalls (reporter : Option ReporterMD) : Nat → Nat × List Bool
  | 0 => (0, [])
  | n + 1 =>
    let p := runCalls reporter n
    let s := execCallPrologue reporter p.1
    (s.1, p.2 ++ [s.2])

/-- Characterization of a run: after `n` executions the counter holds `n`,
and with a reporter of threshold `T` the callback fires on execution `k+1`
exactly when the pre-increment count `k` equals `T`. -/
theorem runCalls_eq (md : ReporterMD) (n : Nat) :
    runCalls (some md) n = (n, (List.range n).map fun k => k == md.limit) := by
  induction n with
  | zero => rfl
  | succ n ih =>
    simp [runCalls, ih, execCallPrologue, atomicRMWAdd, List.range_succ]

/-- Claim C1, as stated, is false: with threshold `T = 1`, the execution on
which the call counter transitions to `T` (the first execution) does *not*
fire the reporter — the injected `icmp` compares the `atomicrmw` result,
which is the pre-increment count — and the callback instead fires on the
second execution, where the counter transitions from `T` to `T+1`. -/
theorem reporter_not_at_transition_to_T :
    (runCalls (some ⟨1, 7, []⟩) 1).2.count true = 0 ∧
    (runCalls (some ⟨1, 7, []⟩) 2).2 = [false, true] := by
  constructor <;> rfl

/-- Auxiliary count: among the pre-increment counts `0, …, n-1`, exactly one
equals the threshold `T` when `T < n`, and none otherwise. -/
theorem count_threshold_hits (T n : Nat) :
    ((List.range n).map fun k => k == T).count true = if T < n then 1 else 0 := by
  induction n with
  | zero => simp
  | succ n ih =>
    rw [List.range_succ, List.map_append, List.count_append, ih]
    have hc : (List.map (fun k => k == T) [n]).count true
        = if n = T then 1 else 0 := by
      by_cases h : n = T <;> simp [h]
    rw [hc]
    by_cases h1 : T < n
    · rw [if_pos h1, if_neg (by omega), if_pos (by omega)]
    · by_cases h2 : n = T
      · rw [if_neg h1, if_pos h2, if_pos (by omega)]
      · rw [if_neg h1, if_neg h2, if_neg (by omega)]

/-- Claim C1 (amended): the injected check compares the *pre-increment* call
count against the threshold `T`, so over any run the reporter fires exactly
once — on the execution where the counter transitions from `T` to `T+1`
(the `(T+1)`-st execution) — provided the run is long enough to reach it,
and never fires at any other execution. -/
theorem reporter_fires_once_at_T_succ (md : ReporterMD) (n : Nat) :
    (runCalls (some md) n).1 = n ∧
    (runCalls (some md) n).2.count true = (if md.limit < n then 1 else 0) ∧
    (∀ k, k < n → (runCalls (some md) n).2[k]? = some (k == md.limit)) := by
  refine ⟨by rw [runCalls_eq], ?_, ?_⟩
  · rw [runCalls_eq]
    simpa using count_threshold_hits md.limit n
  · intro k hk
    rw [runCalls_eq]
    simp [List.getElem?_map, List.getElem?_range hk]

/-- Witness for the amended C1 at threshold 2 over 5 executions: the counter
ends at 5, the reporter fired exactly once, and it fired on execution 3
(pre-increment count 2 = T), not on execution 2 (where the counter
transitions to T). -/
theorem reporter_fires_once_at_T_succ_witness :
    (runCalls (some ⟨2, 7, []⟩) 5).1 = 5 ∧
    (runCalls (some ⟨2, 7, []⟩) 5).2.count true = 1 ∧
    (runCalls (some ⟨2, 7, []⟩) 5).2[2]? = some true ∧
    (runCalls (some ⟨2, 7, []⟩) 5).2[1]? = some false := by
  obtain ⟨h1, h2, h3⟩ := reporter_fires_once_at_T_succ ⟨2, 7, []⟩ 5
  refine ⟨h1, by simpa using h2, by simpa using h3 2 (by decide),
    by simpa using h3 1 (by decide)⟩

/-! ## Branch instrumentation (`addBranchInstrumentation`, lines 79-104) -/

/-- Whether a block's terminator is profiled: a `BranchInst` that is neither
unconditional nor conditioned on a compile-time constant (lines 87-89). -/
def isProfiledBranch (bb : BasicBlock) : Bool :=
  match bb.term with
  | .condBr c => !c.isConst
  | _ => false

/-- The two atomic adds injected immediately before a profiled branch in
block `i` (lines 99-100): `Total += 1` then `Taken += zext(cond)`. -/
def branchIncrInstrs (i : Nat) : List Instr :=
  [Instr.atomicAdd (CounterTarget.total i) (AddAmount.const 1),
   Instr.atomicAdd (CounterTarget.taken i) AddAmount.zextCond]

/-- The per-block loop of `addBranchInstrumentation` (lines 85-103), walking
the slot list and the block list in lockstep with the running block index:
at a profiled branch the slot is populated (freshly zeroed if empty,
lines 91-95) and the two counter increments are appended in front of the
terminator; other blocks and slots are left untouched. -/
def instrumentBlocks (i : Nat) :
    List (Option BranchInfo) → List BasicBlock →
    List (Option BranchInfo) × List BasicBlock
  | s :: ss, bb :: bbs =>
    let rest := instrumentBlocks (i + 1) ss bbs
    if isProfiledBranch bb then
      (some (s.getD ⟨0, 0⟩) :: rest.1,
       { bb with insts := bb.insts ++ branchIncrInstrs i } :: rest.2)
    else
      (s :: rest.1, bb :: rest.2)
  | ss, _ => (ss, [])

/-- The source's `addBranchInstrumentation` (lines 79-104): lazily size the slot vector to
the function's block count on first use (lines 81-83), check the size
invariant (the `assert` at line 84 — a mismatch is a fatal contract
violation, modelled as `none`), then instrument every profiled branch. -/
def addBranchInstrumentation (Prof : FunctionProfile) (F : IRFunction) :
    Option (FunctionProfile × IRFunction) :=
  let slots := if Prof.BranchProfiles.isEmpty
    then List.replicate F.blocks.length Option.none
    else Prof.BranchProfiles
  if slots.length = F.blocks.length then
    let r := instrumentBlocks 0 slots F.blocks
    some ({ Prof with BranchProfiles := r.1 }, { F with blocks := r.2 })
  else
    Option.none

/-- Lengths through `instrumentBlocks`: the slot list and the block list keep
their (equal) lengths. -/
theorem instrumentBlocks_length (i : Nat) (slots : List (Option BranchInfo))
    (bbs : List BasicBlock) (h : slots.length = bbs.length) :
    (instrumentBlocks i slots bbs).1.length = bbs.length ∧
    (instrumentBlocks i slots bbs).2.length = bbs.length := by
  induction bbs generalizing slots i with
  | nil =>
    cases slots with
    | nil => simp [instrumentBlocks]
    | cons s ss => simp at h
  | cons bb bbs ih =>
    cases slots with
    | nil => simp at h
    | cons s ss =>
      have hlen : ss.length = bbs.length := by simpa using h
      obtain ⟨ih1, ih2⟩ := ih (i + 1) ss hlen
      by_cases hp : isProfiledBranch bb <;>
        simp [instrumentBlocks, hp, ih1, ih2]

/-- Pointwise description of `instrumentBlocks`: position `j` of the output
depends only on position `j` of the inputs and the absolute block index. -/
theorem instrumentBlocks_getElem (i : Nat) (slots : List (Option BranchInfo))
    (bbs : List BasicBlock) (j : Nat) (s : Option BranchInfo) (bb : BasicBlock)
    (hs : slots[j]? = some s) (hb : bbs[j]? = some bb) :
    (instrumentBlocks i slots bbs).1[j]? =
      some (if isProfiledBranch bb then some (s.getD ⟨0, 0⟩) else s) ∧
    (instrumentBlocks i slots bbs).2[j]? =
      some (if isProfiledBranch bb
            then { bb with insts := bb.insts ++ branchIncrInstrs (i + j) }
            else bb) := by
  induction bbs generalizing slots i j with
  | nil => simp at hb
  | cons bb0 bbs ih =>
    cases slots with
    | nil => simp at hs
    | cons s0 ss =>
      cases j with
      | zero =>
        simp only [List.getElem?_cons_zero, Option.some.injEq] at hs hb
        subst hs; subst hb
        by_cases hp : isProfiledBranch bb0 <;>
          simp [instrumentBlocks, hp]
      | succ j =>
        simp only [List.getElem?_cons_succ] at hs hb
        obtain ⟨e1, e2⟩ := ih (i + 1) ss j hs hb
        have harith : i + 1 + j = i + (j + 1) := by omega
        rw [harith] at e2
        by_cases hp : isProfiledBranch bb0
        · simpa [instrumentBlocks, hp] using ⟨e1, e2⟩
        · simpa [instrumentBlocks, hp] using ⟨e1, e2⟩

/-- Entries of a replicated all-empty slot list. -/
theorem replicate_none_getElem (n j : Nat) (h : j < n) :
    (List.replicate n (Option.none (α := BranchInfo)))[j]? = some Option.none := by
  induction n generalizing j with
  | zero => omega
  | succ n ih =>
    cases j with
    | zero => simp [List.replicate]
    | succ j => simpa [List.replicate] using ih j (by omega)

/-- Claim C5: instrumenting a function whose profile has no branch slots yet
(first use) succeeds; afterwards the slot sequence has exactly one slot per
basic block, a slot is populated (freshly zeroed) precisely at the indices of
blocks ending in a non-constant conditional branch, and exactly those blocks
receive the two atomic adds (`Total += 1` then `Taken += zext(cond)`)
immediately before their terminator, all other blocks being unchanged. -/
theorem branch_instrumentation_shape (Prof : FunctionProfile) (F : IRFunction)
    (h : Prof.BranchProfiles = []) :
    ∃ Prof' F', addBranchInstrumentation Prof F = some (Prof', F') ∧
      Prof'.BranchProfiles.length = F.blocks.length ∧
      F'.blocks.length = F.blocks.length ∧
      ∀ j bb, F.blocks[j]? = some bb →
        Prof'.BranchProfiles[j]? =
          some (if isProfiledBranch bb then some ⟨0, 0⟩ else Option.none) ∧
        F'.blocks[j]? =
          some (if isProfiledBranch bb
                then { bb with insts := bb.insts ++ branchIncrInstrs j }
                else bb) := by
  have hlen : (List.replicate F.blocks.length (Option.none (α := BranchInfo))).length
      = F.blocks.length := List.length_replicate _ _
  obtain ⟨l1, l2⟩ := instrumentBlocks_length 0
    (List.replicate F.blocks.length Option.none) F.blocks hlen
  have heq : addBranchInstrumentation Prof F =
      some ({ Prof with BranchProfiles :=
                (instrumentBlocks 0 (List.replicate F.blocks.length Option.none) F.blocks).1 },
            { F with blocks :=
                (instrumentBlocks 0 (List.replicate F.blocks.length Option.none) F.blocks).2 }) := by
    simp [addBranchInstrumentation, h]
  refine ⟨_, _, heq, by simpa using l1, by simpa using l2, ?_⟩
  intro j bb hb
  have hj : j < F.blocks.length := by
    by_contra hlt
    rw [List.getElem?_eq_none (by omega)] at hb
    exact Option.noConfusion hb
  obtain ⟨e1, e2⟩ := instrumentBlocks_getElem 0
    (List.replicate F.blocks.length Option.none) F.blocks j Option.none bb
    (replicate_none_getElem _ _ hj) hb
  constructor
  · simpa using e1
  · simpa using e2

/-- Witness for C5: a two-block function — block 0 ends in a conditional
branch on a runtime value, block 1 returns — instrumented against a fresh
profile.  Slot 0 gets populated with zero counters and block 0 gets the two
atomic adds; slot 1 stays empty and block 1 is untouched. -/
theorem branch_instrumentation_shape_witness :
    (⟨0, ⟨0, 0⟩, ⟨0, 0⟩, [], 0, 2, 3⟩ : FunctionProfile).BranchProfiles = [] ∧
    ∃ Prof' F',
      addBranchInstrumentation ⟨0, ⟨0, 0⟩, ⟨0, 0⟩, [], 0, 2, 3⟩
        ⟨"f", Option.none, Option.none, Option.none,
          [⟨[Instr.other], Terminator.condBr (Operand.value 5), Option.none⟩,
           ⟨[], Terminator.other, Option.none⟩]⟩ = some (Prof', F') ∧
      Prof'.BranchProfiles.length = 2 ∧
      F'.blocks.length = 2 ∧
      ∀ j bb,
        (⟨"f", Option.none, Option.none, Option.none,
          [⟨[Instr.other], Terminator.condBr (Operand.value 5), Option.none⟩,
           ⟨[], Terminator.other, Option.none⟩]⟩ : IRFunction).blocks[j]? = some bb →
        Prof'.BranchProfiles[j]? =
          some (if isProfiledBranch bb then some ⟨0, 0⟩ else Option.none) ∧
        F'.blocks[j]? =
          some (if isProfiledBranch bb
                then { bb with insts := bb.insts ++ branchIncrInstrs j }
                else bb) := by
  exact ⟨rfl, branch_instrumentation_shape _ _ rfl⟩

/-! ## Allocation instrumentation (`addAllocInstrumentation`, lines 124-150) -/

/-- Helper for `StringRef::contains`, reduced to character lists. -/
def listContainsAux (needle : List Char) : List Char → Bool
  | [] => needle.isEmpty
  | c :: cs => List.isPrefixOf needle (c :: cs) || listContainsAux needle cs

/-- The test `Name.contains(fragment)` on LLVM `StringRef`s (line 137 of the source). -/
def strContains (hay needle : String) : Bool :=
  listContainsAux needle.data hay.data

/-- The callee-name match of lines 130-138: before optimization the single
canonical symbol `julia.gc_alloc_obj`; after optimization the lowered
allocator family recognised by the two name fragments.  Indirect calls
(`getCalledFunction()` null) never match. -/
def allocCallMatch (Preopt : Bool) (callee : Option String) : Bool :=
  match callee with
  | Option.none => false
  | some name =>
    if Preopt then name = "julia.gc_alloc_obj"
    else strContains name "jl_gc_pool_alloc" || strContains name "jl_gc_big_alloc"

/-- Instrumentation of one instruction list (the inner loop of lines
128-148): before every matching call the two atomic adds are inserted —
`Size += (cast of operand 1)` then `Count += 1` — into either the Preopt or
the Postopt `AllocInfo` of the function's own profile. -/
def instrumentInsts (Preopt : Bool) : List Instr → List Instr
  | [] => []
  | i :: rest =>
    match i with
    | .callInst callee sz =>
      if allocCallMatch Preopt callee then
        Instr.atomicAdd (if Preopt then CounterTarget.preSize else CounterTarget.postSize)
            (AddAmount.sizeOperand sz) ::
        Instr.atomicAdd (if Preopt then CounterTarget.preCount else CounterTarget.postCount)
            (AddAmount.const 1) ::
        i :: instrumentInsts Preopt rest
      else i :: instrumentInsts Preopt rest
    | _ => i :: instrumentInsts Preopt rest

/-- The source's `addAllocInstrumentation` (lines 124-150): scan every call instruction in
every block; the AllocInfo the counters belong to is chosen by the caller
(`Prof.Preopt` at line 203, `Prof->Postopt` at line 171). -/
def addAllocInstrumentation (Preopt : Bool) (F : IRFunction) : IRFunction :=
  { F with blocks := F.blocks.map fun bb =>
      { bb with insts := instrumentInsts Preopt bb.insts } }

/-! ## PGO application (`applyPGOInstrumentation`, lines 106-122) -/

/-- The per-block loop of `applyPGOInstrumentation` (lines 111-121).  For
every block of the function — with no guard whatsoever — the source reads
`Prof.BranchProfiles[BBidx]` and immediately dereferences the slot
(`Branch->Taken`, `Branch->Total`).  Indexing past the vector's length and
dereferencing an unpopulated (null `unique_ptr`) slot are both undefined
behaviour, modelled as `none`; otherwise, when `Total > 0`, the branch
weights `(Taken, Total - Taken)` are attached to the block's terminator. -/
def pgoBlocks (slots : List (Option BranchInfo)) :
    Nat → List BasicBlock → Option (List BasicBlock)
  | _, [] => some []
  | i, bb :: rest =>
    match slots[i]? with
    | Option.none => Option.none
    | some slot =>
      match slot with
      | Option.none => Option.none
      | some bi =>
        let bb' := if bi.Total > 0
          then { bb with weights := some (bi.Taken, bi.Total - bi.Taken) }
          else bb
        (pgoBlocks slots (i + 1) rest).map (bb' :: ·)

/-- The source's `applyPGOInstrumentation` (lines 106-122): attach the function entry
count from the accumulated `CallCount` (line 109), then annotate every
block's terminator from the branch slots. -/
def applyPGOInstrumentation (Prof : FunctionProfile) (F : IRFunction) :
    Option IRFunction :=
  let F1 := { F with entryCount := some Prof.CallCount }
  (pgoBlocks Prof.BranchProfiles 0 F1.blocks).map fun bs => { F1 with blocks := bs }

/-- A single-block function ending in `ret`: the smallest function shape the
pre-optimization pass can meet. -/
def pgoRetFunc : IRFunction :=
  ⟨"f", some (0, 0, 0, 1), Option.none, Option.none,
    [⟨[Instr.other], Terminator.other, Option.none⟩]⟩

/-- A profile whose slot vector was sized by branch instrumentation but whose
only slot is unpopulated (the block ends in `ret`, so
`addBranchInstrumentation` leaves the `unique_ptr` null). -/
def pgoProfNullSlot : FunctionProfile := ⟨3, ⟨0, 0⟩, ⟨0, 0⟩, [Option.none], 0, 1, 1⟩

/-- A profile on which branch instrumentation never ran: the slot vector is
still empty, so every read of `BranchProfiles[BBidx]` is out of bounds. -/
def pgoProfEmpty : FunctionProfile := ⟨3, ⟨0, 0⟩, ⟨0, 0⟩, [], 0, 1, 1⟩

/-- Claim C2 fails on the code: `applyPGOInstrumentation` guards neither the
vector bound nor the slot pointer.  On a one-block function whose block does
not end in a conditional branch, the populated-slot-only discipline the claim
describes is violated in both ways: with a sized slot vector the null slot at
index 0 is dereferenced, and with an empty slot vector index 0 is read out of
bounds — both undefined behaviour (`none`), where the claim requires the
slot to be skipped. -/
theorem applyPGO_dereferences_unpopulated_slot :
    applyPGOInstrumentation pgoProfNullSlot pgoRetFunc = Option.none ∧
    applyPGOInstrumentation pgoProfEmpty pgoRetFunc = Option.none := by
  constructor <;> rfl

/-! ## The profile store (`JITFunctionProfiler`, lines 214-282) -/

/-- Lookup `JITFunctionProfiler::getProfile` (lines 266-272): lookup under the store
lock; absent names yield the null (`none`) signal, never an error. -/
def getProfile (s : Store) (name : String) : Option FunctionProfile :=
  match s with
  | [] => Option.none
  | (n, p) :: rest => if n = name then some p else getProfile rest name

/-- Insertion `JITFunctionProfiler::getOrCreateProfile` (lines 274-282): fetch the
existing profile or run the factory and insert the result. -/
def getOrCreateProfile (s : Store) (name : String)
    (Create : Unit → FunctionProfile) : FunctionProfile × Store :=
  match getProfile s name with
  | some p => (p, s)
  | Option.none =>
    let p := Create ()
    (p, s ++ [(name, p)])

/-- Write an updated profile back to the store under its name (the C++ code
mutates the stored `FunctionProfile` in place through the returned
reference; the pure embedding re-associates the name instead). -/
def setProfile (s : Store) (name : String) (p : FunctionProfile) : Store :=
  s.map fun kv => if kv.1 = name then (kv.1, p) else kv

/-! ## The pass entry points (lines 152-212) -/

/-- The factory passed to `getOrCreateProfile` by the pre-optimization pass
(lines 188-196): zeroed counters plus the structural counts captured at
creation — the loop count comes from the external `LoopAnalysis` result and
is passed in as `loops`; `BBs` is `F.size()`; `Insts` accumulates `BB.size()`
(instruction count including the terminator) over all blocks. -/
def newFunctionProfile (loops : Nat) (F : IRFunction) : FunctionProfile :=
  { CallCount := 0
    Preopt := ⟨0, 0⟩
    Postopt := ⟨0, 0⟩
    BranchProfiles := []
    Loops := loops
    BBs := F.blocks.length
    Insts := F.blocks.foldl (fun Acc bb => Acc + (bb.insts.length + 1)) 0 }

/-- The pass `JITPostoptimizationProfiler::run` (lines 152-176).  The store is the
optional `JITProf` pointer; the pass returns the (never modified) store, the
possibly instrumented function, and the `PreservedAnalyses` answer.  Once
past the three early exits it unconditionally returns the
default-constructed `PreservedAnalyses()` (line 175). -/
def postoptRun (JITProf : Option Store) (fc : ForceFlags) (F : IRFunction) :
    Option Store × IRFunction × PreservedAnalyses :=
  match JITProf with
  | Option.none => (Option.none, F, PreservedAnalyses.all)
  | some s =>
    let Flags := fromFunction fc F
    if !Flags.ProfileAllocations && !Flags.ProfileCalls then
      (some s, F, PreservedAnalyses.all)
    else
      match getProfile s F.name with
      | Option.none => (some s, F, PreservedAnalyses.all)
      | some _Prof =>
        let F1 := if Flags.ProfileCalls then addCallInstrumentation F else F
        let F2 := if Flags.ProfileAllocations then addAllocInstrumentation false F1 else F1
        (some s, F2, PreservedAnalyses.none)

/-- The pass `JITPreoptimizationProfiler::run` (lines 178-212).  Past the two early
exits it fetches or creates the profile, instruments branches and
pre-optimization allocations, optionally applies PGO feedback, and
unconditionally returns `PreservedAnalyses::none()` (line 211).  The outer
`Option` marks undefined behaviour inside `addBranchInstrumentation`'s size
assertion or `applyPGOInstrumentation`'s unchecked slot reads. -/
def preoptRun (JITProf : Option Store) (fc : ForceFlags) (loops : Nat)
    (F : IRFunction) :
    Option (Option Store × IRFunction × PreservedAnalyses) :=
  match JITProf with
  | Option.none => some (Option.none, F, PreservedAnalyses.all)
  | some s =>
    let Flags := fromFunction fc F
    if !Flags.ProfileBranches && !Flags.ProfileAllocations && !Flags.ApplyPGO then
      some (some s, F, PreservedAnalyses.all)
    else
      let pr := getOrCreateProfile s F.name fun _ => newFunctionProfile loops F
      let step1 : Option (FunctionProfile × IRFunction) :=
        if Flags.ProfileBranches then addBranchInstrumentation pr.1 F
        else some (pr.1, F)
      step1.bind fun pf =>
        let F2 := if Flags.ProfileAllocations then addAllocInstrumentation true pf.2 else pf.2
        let oF3 := if Flags.ApplyPGO then applyPGOInstrumentation pf.1 F2 else some F2
        oF3.map fun F3 =>
          (some (setProfile pr.2 F.name pf.1), F3, PreservedAnalyses.none)

/-! ## Frame and no-op properties of the passes (claims C3, C6, C7, C10) -/

/-- Claim C10: with a null `JITProf` store pointer, both passes return
immediately with `PreservedAnalyses::all()`, leaving the function's code and
all profiling state untouched, for every flag configuration and function. -/
theorem null_store_passes_noop (fc : ForceFlags) (loops : Nat) (F : IRFunction) :
    preoptRun Option.none fc loops F
      = some (Option.none, F, PreservedAnalyses.all) ∧
    postoptRun Option.none fc F = (Option.none, F, PreservedAnalyses.all) :=
  ⟨rfl, rfl⟩

/-- A name that is not a key of the store looks up to the `none` signal. -/
theorem getProfile_eq_none (s : Store) (name : String)
    (h : name ∉ s.map Prod.fst) : getProfile s name = Option.none := by
  induction s with
  | nil => rfl
  | cons kv rest ih =>
    obtain ⟨n, p⟩ := kv
    simp only [List.map_cons, List.mem_cons, not_or] at h
    have hne : ¬(n = name) := fun e => h.1 e.symm
    simp [getProfile, hne, ih h.2]

/-- Claim C6: the post-optimization pass never creates a profile.  For a
function whose name has no profile in the store, `getProfile` returns the
`none` signal (not an error), and the pass is a no-op: the store is
unchanged, the function is returned unmodified, and all analyses are
reported preserved. -/
theorem postopt_never_creates_profile (s : Store) (fc : ForceFlags)
    (F : IRFunction) (h : F.name ∉ s.map Prod.fst) :
    getProfile s F.name = Option.none ∧
    postoptRun (some s) fc F = (some s, F, PreservedAnalyses.all) := by
  have hget := getProfile_eq_none s F.name h
  refine ⟨hget, ?_⟩
  unfold postoptRun
  cases hb : (!(fromFunction fc F).ProfileAllocations
      && !(fromFunction fc F).ProfileCalls)
  · simp [hb, hget]
  · simp [hb]

/-- Witness for C6: a store holding only a profile for `g`, and a function
`f` whose annotation requests calls and allocations — still a no-op because
no profile for `f` exists. -/
theorem postopt_never_creates_profile_witness :
    ((⟨"f", some (1, 0, 1, 0), Option.none, Option.none,
        [⟨[], Terminator.other, Option.none⟩]⟩ : IRFunction).name
      ∉ ([("g", ⟨0, ⟨0, 0⟩, ⟨0, 0⟩, [], 0, 1, 1⟩)] : Store).map Prod.fst) ∧
    (getProfile [("g", ⟨0, ⟨0, 0⟩, ⟨0, 0⟩, [], 0, 1, 1⟩)] "f" = Option.none ∧
     postoptRun (some [("g", ⟨0, ⟨0, 0⟩, ⟨0, 0⟩, [], 0, 1, 1⟩)]) ⟨false, false, false⟩
        ⟨"f", some (1, 0, 1, 0), Option.none, Option.none,
          [⟨[], Terminator.other, Option.none⟩]⟩
       = (some [("g", ⟨0, ⟨0, 0⟩, ⟨0, 0⟩, [], 0, 1, 1⟩)],
          ⟨"f", some (1, 0, 1, 0), Option.none, Option.none,
            [⟨[], Terminator.other, Option.none⟩]⟩,
          PreservedAnalyses.all)) := by
  exact ⟨by decide,
    postopt_never_creates_profile [("g", ⟨0, ⟨0, 0⟩, ⟨0, 0⟩, [], 0, 1, 1⟩)]
      ⟨false, false, false⟩
      ⟨"f", some (1, 0, 1, 0), Option.none, Option.none,
        [⟨[], Terminator.other, Option.none⟩]⟩ (by decide)⟩

/-- Claim C7: when the resolved flags request none of branches, allocations
or apply-PGO, the pre-optimization pass is a no-op signalling that nothing
was invalidated: the store is returned unchanged (no profile is created) and
the function's code is untouched. -/
theorem preopt_noop_when_nothing_requested (s : Store) (fc : ForceFlags)
    (loops : Nat) (F : IRFunction)
    (h1 : (fromFunction fc F).ProfileBranches = false)
    (h2 : (fromFunction fc F).ProfileAllocations = false)
    (h3 : (fromFunction fc F).ApplyPGO = false) :
    preoptRun (some s) fc loops F = some (some s, F, PreservedAnalyses.all) := by
  unfold preoptRun
  simp [h1, h2, h3]

/-- Witness for C7: an unannotated function with only the calls force switch
on — calls alone do not concern the pre-optimization pass, so it no-ops on a
nonempty store, creating nothing. -/
theorem preopt_noop_when_nothing_requested_witness :
    ((fromFunction ⟨false, true, false⟩
        ⟨"h", Option.none, Option.none, Option.none, []⟩).ProfileBranches = false ∧
     (fromFunction ⟨false, true, false⟩
        ⟨"h", Option.none, Option.none, Option.none, []⟩).ProfileAllocations = false ∧
     (fromFunction ⟨false, true, false⟩
        ⟨"h", Option.none, Option.none, Option.none, []⟩).ApplyPGO = false) ∧
    preoptRun (some [("g", ⟨0, ⟨0, 0⟩, ⟨0, 0⟩, [], 0, 1, 1⟩)]) ⟨false, true, false⟩ 4
        ⟨"h", Option.none, Option.none, Option.none, []⟩
      = some (some [("g", ⟨0, ⟨0, 0⟩, ⟨0, 0⟩, [], 0, 1, 1⟩)],
              ⟨"h", Option.none, Option.none, Option.none, []⟩,
              PreservedAnalyses.all) := by
  exact ⟨⟨rfl, rfl, rfl⟩,
    preopt_noop_when_nothing_requested _ _ _ _ rfl rfl rfl⟩

/-- The function used to refute claim C3: annotated allocations-only, with a
single block containing no call instruction at all. -/
def c3func : IRFunction :=
  ⟨"f", some (1, 0, 0, 0), Option.none, Option.none,
    [⟨[Instr.other], Terminator.other, Option.none⟩]⟩

/-- A store that already holds a profile for `f`. -/
def c3store : Store := [("f", ⟨0, ⟨0, 0⟩, ⟨0, 0⟩, [], 0, 1, 2⟩)]

/-- Claim C3, as stated, is false on the code: on an allocations-only
function with a profile present but no matching allocation call sites, the
post-optimization pass adds nothing — the function comes back unchanged —
yet it reports that not all analyses are preserved (`PreservedAnalyses()`,
line 175), where the claim requires full preservation whenever nothing was
added. -/
theorem postopt_invalidates_without_adding :
    (postoptRun (some c3store) ⟨false, false, false⟩ c3func).2.1 = c3func ∧
    (postoptRun (some c3store) ⟨false, false, false⟩ c3func).2.2
      ≠ PreservedAnalyses.all := by
  constructor <;> decide

/-- Claim C3 (amended): with a non-null store, the post-optimization pass
reports full preservation exactly on its early-exit paths — neither calls
nor allocations requested, or no existing profile; whenever it proceeds to
the instrumentation stage it reports that not all analyses are preserved,
even when that stage adds no instruction (the threshold-check branch is only
the reason the source cites for the conservative answer). -/
theorem postopt_preserved_iff_early_exit (s : Store) (fc : ForceFlags)
    (F : IRFunction) :
    (postoptRun (some s) fc F).2.2 = PreservedAnalyses.all ↔
      ((fromFunction fc F).ProfileAllocations = false ∧
       (fromFunction fc F).ProfileCalls = false) ∨
      getProfile s F.name = Option.none := by
  unfold postoptRun
  cases hb : (!(fromFunction fc F).ProfileAllocations
      && !(fromFunction fc F).ProfileCalls)
  · have hflag : ¬((fromFunction fc F).ProfileAllocations = false ∧
        (fromFunction fc F).ProfileCalls = false) := by
      intro hc
      rw [hc.1, hc.2] at hb
      simp at hb
    cases hg : getProfile s F.name
    · simp [hb, hg]
    · simp [hb, hg, hflag]
  · have hflag : (fromFunction fc F).ProfileAllocations = false ∧
        (fromFunction fc F).ProfileCalls = false := by
      simpa [Bool.and_eq_true, Bool.not_eq_true'] using hb
    simp [hb, hflag]

/-! ## Dump (`JITFunctionProfiler::dump`, lines 214-264) -/

/-- One branch record as printed at line 246 of the source. -/
def renderBranchEntry (Idx : Nat) (bi : BranchInfo) : String :=
  "\x7b\"Idx\":" ++ toString Idx ++ ",\"Taken\":" ++ toString bi.Taken ++
    ",\"Total\":" ++ toString bi.Total ++ "\x7d"

/-- The inner branch loop of lines 236-248: walk the slots with the running
index and the `Comma` flag; an unpopulated slot is skipped (`continue`), the
first populated slot opens the `"Branches":[` list, later ones are preceded
by a comma.  Returns the text produced and the final `Comma` flag. -/
def branchesLoop : Nat → Bool → List (Option BranchInfo) → String × Bool
  | _, Comma, [] => ("", Comma)
  | Idx, Comma, Option.none :: rest => branchesLoop (Idx + 1) Comma rest
  | Idx, Comma, some bi :: rest =>
    let r := branchesLoop (Idx + 1) true rest
    ((if Comma then "," else "\"Branches\":[") ++ renderBranchEntry Idx bi ++ r.1,
     r.2)

/-- Lines 232-253 of the source: nothing at all is printed when the slot
vector is empty, and the list is closed with `],` only when the loop printed
at least one entry (`if (Comma)`, line 249). -/
def branchesSection (slots : List (Option BranchInfo)) : String :=
  if slots.isEmpty then ""
  else
    (branchesLoop 0 false slots).1 ++
      (if (branchesLoop 0 false slots).2 then "]," else "")

/-- One function's record as printed by the body of the loop at lines
218-258: `Name` always, `Calls` only when nonzero, the `Allocs` pair only
when one of the two `Count`s is nonzero, the branch section, `Loops` only
when nonzero, and `BBs`/`Insts` always. -/
def renderProfile (Name : String) (p : FunctionProfile) : String :=
  "\x7b\"Name\":\"" ++ Name ++ "\"," ++
  (if p.CallCount ≠ 0 then "\"Calls\":" ++ toString p.CallCount ++ "," else "") ++
  (if p.Preopt.Count ≠ 0 ∨ p.Postopt.Count ≠ 0 then
    "\"Allocs\":[\x7b\"Size\":" ++ toString p.Preopt.Size ++ ",\"Count\":" ++
      toString p.Preopt.Count ++ "\x7d,\x7b\"Size\":" ++ toString p.Postopt.Size ++
      ",\"Count\":" ++ toString p.Postopt.Count ++ "\x7d],"
   else "") ++
  branchesSection p.BranchProfiles ++
  (if p.Loops ≠ 0 then "\"Loops\":" ++ toString p.Loops ++ "," else "") ++
  "\"BBs\":" ++ toString p.BBs ++ ",\"Insts\":" ++ toString p.Insts ++ "\x7d"

/-- The record loop of lines 217-262 with its `--Count` comma logic: a comma
separates a record from its successor, never trailing. -/
def dumpRecords : Nat → Store → String
  | _, [] => ""
  | Count, (n, p) :: rest =>
    renderProfile n p ++ (if Count - 1 ≠ 0 then "," else "") ++
      dumpRecords (Count - 1) rest

/-- The report `JITFunctionProfiler::dump` (lines 214-264): the whole store rendered as
one bracketed line. -/
def dump (s : Store) : String :=
  "[" ++ dumpRecords s.length s ++ "]" ++ "\n"

/-- The `dump` routine as the `const` member it is: it reads the store and writes the
report, leaving the store untouched — the state-passing form used to state
idempotence. -/
def dumpSt (s : Store) : String × Store :=
  (dump s, s)

/-! ### Specification-side decomposition helpers for the dump format -/

/-- The populated slots with their indices, in order — the entries the claim
says the `Branches` list must contain exactly. -/
def populatedEntries : Nat → List (Option BranchInfo) → List (Nat × BranchInfo)
  | _, [] => []
  | i, Option.none :: rest => populatedEntries (i + 1) rest
  | i, some bi :: rest => (i, bi) :: populatedEntries (i + 1) rest

/-- Plain concatenation of a list of strings. -/
def strConcat : List String → String
  | [] => ""
  | x :: xs => x ++ strConcat xs

/-- Comma-separated concatenation: the head followed by each later element
prefixed with a comma. -/
def joinComma : List String → String
  | [] => ""
  | x :: xs => x ++ strConcat (xs.map fun y => "," ++ y)

/-- The final `Comma` flag of the branch loop records whether any populated
slot was printed. -/
theorem branchesLoop_snd (slots : List (Option BranchInfo)) (Idx : Nat)
    (c : Bool) :
    (branchesLoop Idx c slots).2 = (c || !(populatedEntries Idx slots).isEmpty) := by
  induction slots generalizing Idx c with
  | nil => simp [branchesLoop, populatedEntries]
  | cons hd rest ih =>
    cases hd with
    | none => simp [branchesLoop, populatedEntries, ih]
    | some bi => simp [branchesLoop, populatedEntries, ih]

/-- The text of the branch loop: the populated entries, comma-separated,
opened either with a comma (when something was already printed) or with the
`"Branches":[` header. -/
theorem branchesLoop_fst (slots : List (Option BranchInfo)) (Idx : Nat)
    (c : Bool) :
    (branchesLoop Idx c slots).1 =
      match populatedEntries Idx slots with
      | [] => ""
      | e :: rest =>
        (if c then "," else "\"Branches\":[") ++
          joinComma ((e :: rest).map fun e2 => renderBranchEntry e2.1 e2.2) := by
  induction slots generalizing Idx c with
  | nil => simp [branchesLoop, populatedEntries]
  | cons hd rest ih =>
    cases hd with
    | none =>
      simp only [branchesLoop, populatedEntries]
      exact ih (Idx + 1) c
    | some bi =>
      simp only [branchesLoop, populatedEntries]
      rw [ih (Idx + 1) true]
      cases hpe : populatedEntries (Idx + 1) rest with
      | nil => simp [joinComma, strConcat]
      | cons e rest2 => simp [joinComma, strConcat, String.append_assoc]

/-- The branch section of a record: empty exactly when no slot is populated,
otherwise the `"Branches":[…],` list of exactly the populated entries. -/
theorem branchesSection_eq (slots : List (Option BranchInfo)) :
    branchesSection slots =
      match populatedEntries 0 slots with
      | [] => ""
      | e :: rest =>
        "\"Branches\":[" ++
          joinComma ((e :: rest).map fun e2 => renderBranchEntry e2.1 e2.2) ++
          "]," := by
  cases slots with
  | nil => simp [branchesSection, populatedEntries]
  | cons hd rest =>
    unfold branchesSection
    rw [if_neg (by simp), branchesLoop_fst, branchesLoop_snd]
    cases hpe : populatedEntries 0 (hd :: rest) with
    | nil => simp
    | cons e rest2 => simp

/-- A string starting with a nonempty piece is nonempty. -/
theorem append_ne_empty_left (a b : String) (h : a.length ≠ 0) : a ++ b ≠ "" := by
  intro e
  have hl := congrArg String.length e
  rw [String.length_append] at hl
  have h0 : ("" : String).length = 0 := rfl
  rw [h0] at hl
  omega

/-- The record loop with its `--Count` comma logic is comma-separated
concatenation of the individual records. -/
theorem dumpRecords_eq (s : Store) :
    dumpRecords s.length s = joinComma (s.map fun kv => renderProfile kv.1 kv.2) := by
  induction s with
  | nil => rfl
  | cons kv rest ih =>
    obtain ⟨n, p⟩ := kv
    have step : dumpRecords ((n, p) :: rest : Store).length ((n, p) :: rest)
        = renderProfile n p ++ (if rest.length ≠ 0 then "," else "") ++
          dumpRecords rest.length rest := by
      simp only [dumpRecords, List.length_cons, Nat.add_sub_cancel]
    rw [step, ih]
    cases rest with
    | nil => simp [joinComma, strConcat]
    | cons kv2 rest2 =>
      rw [if_pos (by simp)]
      simp [joinComma, strConcat, String.append_assoc]

/-- A string of length zero is the empty string. -/
theorem eq_empty_of_length_zero (s : String) (h : s.length = 0) : s = "" := by
  cases s with
  | mk data =>
    cases data with
    | nil => rfl
    | cons c cs => simp [String.length] at h

/-- An append whose left part is nonempty is nonempty. -/
theorem append_ne_empty_of_left (a b : String) (h : a ≠ "") : a ++ b ≠ "" := by
  intro e
  apply h
  have hl := congrArg String.length e
  rw [String.length_append] at hl
  have h0 : ("" : String).length = 0 := rfl
  rw [h0] at hl
  exact eq_empty_of_length_zero a (by omega)

/-- Claim C8: the dump output is the bracketed comma-separated list of one
record per stored profile, and each record decomposes as the always-present
`Name` header, then a `Calls` part that is present iff `CallCount` is
nonzero, an `Allocs` part present iff one of the two allocation `Count`s is
nonzero, a `Branches` part that lists exactly the populated slots (as
`Idx`/`Taken`/`Total` records, in order) and is omitted when no slot is
populated, a `Loops` part present iff `Loops` is nonzero, and the
always-present `BBs`/`Insts` tail. -/
theorem dump_format (s : Store) :
    dump s = "[" ++ joinComma (s.map fun kv => renderProfile kv.1 kv.2)
        ++ "]" ++ "\n" ∧
    ∀ Name p, ∃ cs as bs ls,
      renderProfile Name p =
        "\x7b\"Name\":\"" ++ Name ++ "\"," ++ cs ++ as ++ bs ++ ls ++
          "\"BBs\":" ++ toString p.BBs ++ ",\"Insts\":" ++
          toString p.Insts ++ "\x7d" ∧
      (cs ≠ "" ↔ p.CallCount ≠ 0) ∧
      (as ≠ "" ↔ (p.Preopt.Count ≠ 0 ∨ p.Postopt.Count ≠ 0)) ∧
      (bs ≠ "" ↔ populatedEntries 0 p.BranchProfiles ≠ []) ∧
      (populatedEntries 0 p.BranchProfiles ≠ [] →
        bs = "\"Branches\":[" ++
          joinComma ((populatedEntries 0 p.BranchProfiles).map fun e =>
            renderBranchEntry e.1 e.2) ++ "],") ∧
      (ls ≠ "" ↔ p.Loops ≠ 0) := by
  constructor
  · unfold dump
    rw [dumpRecords_eq]
  · intro Name p
    refine ⟨_, _, _, _, rfl, ?_, ?_, ?_, ?_, ?_⟩
    · by_cases hc : p.CallCount = 0
      · simp [hc]
      · rw [if_pos hc]
        simp only [ne_eq, hc, not_false_eq_true, iff_true]
        apply append_ne_empty_of_left
        apply append_ne_empty_of_left
        decide
    · by_cases ha : p.Preopt.Count ≠ 0 ∨ p.Postopt.Count ≠ 0
      · rw [if_pos ha]
        simp only [ne_eq, ha, iff_true]
        repeat apply append_ne_empty_of_left
        decide
      · rw [if_neg ha]
        simp [ha]
    · rw [branchesSection_eq]
      cases hpe : populatedEntries 0 p.BranchProfiles with
      | nil => simp
      | cons e rest =>
        simp only [ne_eq, reduceCtorEq, not_false_eq_true, iff_true]
        apply append_ne_empty_of_left
        apply append_ne_empty_of_left
        decide
    · intro hne
      rw [branchesSection_eq]
      cases hpe : populatedEntries 0 p.BranchProfiles with
      | nil => exact absurd hpe hne
      | cons e rest => rfl
    · by_cases hl : p.Loops = 0
      · simp [hl]
      · rw [if_pos hl]
        simp only [ne_eq, hl, not_false_eq_true, iff_true]
        apply append_ne_empty_of_left
        apply append_ne_empty_of_left
        decide

/-- Claim C9: `dump` is a read-only operation — it returns the store it was
given unchanged — so a second dump with no intervening updates produces
byte-identical output. -/
theorem dump_idempotent (s : Store) :
    (dumpSt s).2 = s ∧ (dumpSt ((dumpSt s).2)).1 = (dumpSt s).1 :=
  ⟨rfl, rfl⟩

/-- Witness for C8 at a concrete store (the spec's own scenario: `foo`,
called 10 times, one populated branch slot at index 1 with 3 of 10 taken,
2 blocks, 5 instructions): the record shows `Name`, `Calls`, the populated
branch only, `BBs` and `Insts`, and omits `Allocs` and `Loops`. -/
theorem dump_format_witness :
    dump [("foo", ⟨10, ⟨0, 0⟩, ⟨0, 0⟩, [Option.none, some ⟨3, 10⟩], 0, 2, 5⟩)] =
      "[" ++ joinComma
          (([("foo", ⟨10, ⟨0, 0⟩, ⟨0, 0⟩, [Option.none, some ⟨3, 10⟩], 0, 2, 5⟩)]
            : Store).map fun kv => renderProfile kv.1 kv.2) ++ "]" ++ "\n" ∧
    dump [("foo", ⟨10, ⟨0, 0⟩, ⟨0, 0⟩, [Option.none, some ⟨3, 10⟩], 0, 2, 5⟩)] =
      "[\x7b\"Name\":\"foo\",\"Calls\":10,\"Branches\":[\x7b\"Idx\":1,\"Taken\":3,\"Total\":10\x7d],\"BBs\":2,\"Insts\":5\x7d]\n" :=
  ⟨(dump_format _).1, by decide⟩
